import Mathlib

/-!
Verification development for the `safe-try` library (`src/main.ts`,
`src/types.ts`).

The library runs on erased TypeScript types, i.e. on JavaScript runtime
values, so the embedding works over a JavaScript-like value domain `JSVal`
with explicit truthiness: the source guards
(`if (this.config.timeoutMs)`, `if (!result.error)`, `error || default`,
`maxDelayMs || 30000`) all branch on JS truthiness, and several claims
hinge on exactly those guards.

Time is modelled by a logical clock (ℚ milliseconds).  A promise value
carries the duration after which it settles (relative to its creation
time) and its outcome; awaiting advances the clock.  `setTimeout`'s
clamping of negative delays to 0 is modelled by `max · 0`.

`Math.random()` is modelled by an injected stream `rand : Nat → ℚ`
(one draw per loop attempt), values intended in `[0, 1)`.
-/

namespace SafeTry

/-- JavaScript runtime values, as far as the library inspects them:
`null`, `undefined`, booleans, numbers, strings, `Error` objects
(identified by their message), promises (settle after `duration`
milliseconds from creation, resolving or rejecting with `val`), and
other plain objects. -/
inductive JSVal : Type where
  | vnull : JSVal
  | vundef : JSVal
  | vbool : Bool → JSVal
  | vnum : ℚ → JSVal
  | vstr : String → JSVal
  | verror : String → JSVal
  | vpromise : ℚ → Bool → JSVal → JSVal
  | vobj : JSVal
  deriving DecidableEq, Repr

open JSVal

/-- JS truthiness of a value (`null`, `undefined`, `false`, `0`, `""` are
falsy; objects, promises and `Error`s are truthy). -/
def truthy : JSVal → Bool
  | vnull => false
  | vundef => false
  | vbool b => b
  | vnum q => q != 0
  | vstr s => s != ""
  | verror _ => true
  | vpromise _ _ _ => true
  | vobj => true

/-- Whether `typeof v === 'object'` (true for `null` in JS). -/
def typeofObject : JSVal → Bool
  | vnull => true
  | verror _ => true
  | vpromise _ _ _ => true
  | vobj => true
  | _ => false

/-- Whether the value has a `then` property (is thenable); in this model
only promises are thenable. -/
def hasThen : JSVal → Bool
  | vpromise _ _ _ => true
  | _ => false

/-- The guard `fn && typeof fn === 'object' && 'then' in fn` used by
`Try.catch` to detect promises. -/
def isThenableGuard (v : JSVal) : Bool :=
  truthy v && typeofObject v && hasThen v

/-- Runtime shape of `Result<T, E>`: the two fields of the object
literally produced by the code (`null` is `JSVal.vnull`). -/
structure JSResult where
  data : JSVal
  error : JSVal
  deriving DecidableEq, Repr

/-- The `AsyncConfig` record of `src/types.ts`; `none` models an absent /
`undefined` property. -/
structure AsyncConfig where
  baseDelayMs : Option ℚ := none
  exponential : Option Bool := none
  maxDelayMs : Option ℚ := none
  jitter : Option Bool := none
  timeoutMs : Option ℚ := none
  timeoutError : Option JSVal := none
  maxRetries : Option ℚ := none
  deriving DecidableEq, Repr

/-- JS truthiness of an optional number property (absent and `0` are
falsy). -/
def numTruthy : Option ℚ → Bool
  | none => false
  | some q => q != 0

/-- JS `x || d` for an optional numeric property. -/
def orNum (o : Option ℚ) (d : ℚ) : ℚ :=
  match o with
  | none => d
  | some q => if q != 0 then q else d

/-- JS truthiness of an optional boolean property. -/
def boolTruthy : Option Bool → Bool
  | none => false
  | some b => b

/-- JS `x || d` for an optional JS-value property. -/
def jsOrVal (o : Option JSVal) (d : JSVal) : JSVal :=
  match o with
  | none => d
  | some v => if truthy v then v else d

/-- JS `e || d` for a JS value. -/
def jsOrErr (e : JSVal) (d : JSVal) : JSVal :=
  if truthy e then e else d

/-- The `operation` field of `AsyncOperation`: either an already created
promise value (the only case the public API produces), or a
zero-argument producer; call number `k` of the producer returns `f k`,
created at invocation time. -/
inductive Operation : Type where
  | promise : JSVal → Operation
  | fn : (Nat → JSVal) → Operation

/-- The `AsyncOperation<T, E>` class: a wrapped operation plus an
execution configuration. -/
structure AsyncOperation where
  operation : Operation
  config : AsyncConfig

/-- Options object of `withBackoff`
(`WithRequiredProperty<BackoffConfig, 'baseDelayMs'>`). -/
structure BackoffOptions where
  baseDelayMs : ℚ
  exponential : Option Bool := none
  maxDelayMs : Option ℚ := none
  jitter : Option Bool := none
  deriving DecidableEq, Repr

/-- `AsyncOperation.withTimeout`: new instance, config spread with
`timeoutMs: ms, timeoutError: error` (an omitted `error` argument writes
`undefined`, i.e. `none`). -/
def AsyncOperation.withTimeout (o : AsyncOperation) (ms : ℚ)
    (err : Option JSVal) : AsyncOperation :=
  { operation := o.operation
    config := { o.config with timeoutMs := some ms, timeoutError := err } }

/-- `AsyncOperation.withRetry`: new instance, config spread with
`maxRetries: maxAttempts`. -/
def AsyncOperation.withRetry (o : AsyncOperation) (n : ℚ) : AsyncOperation :=
  { operation := o.operation
    config := { o.config with maxRetries := some n } }

/-- `AsyncOperation.withBackoff`: new instance, config spread with all
four backoff keys taken from the options object (an omitted option
writes `undefined`, i.e. `none`). -/
def AsyncOperation.withBackoff (o : AsyncOperation)
    (opts : BackoffOptions) : AsyncOperation :=
  { operation := o.operation
    config := { o.config with
                  baseDelayMs := some opts.baseDelayMs
                  exponential := opts.exponential
                  maxDelayMs := opts.maxDelayMs
                  jitter := opts.jitter } }

/-- Rendering of a number inside the timeout message; integral numbers
print as their integer part, as in JS. -/
def qToString (q : ℚ) : String :=
  if q.den = 1 then toString q.num
  else toString q.num ++ "/" ++ toString q.den

/-- The default timeout error message built in `run()`:
`Operation timed out after ${this.config.timeoutMs}ms`. -/
def timeoutMessage (q : ℚ) : String :=
  "Operation timed out after " ++ qToString q ++ "ms"

/-- Outcome of one awaited attempt: the operation promise resolved, it
rejected, or the timeout timer won the race (carrying the produced
timeout error value). -/
inductive AttemptOutcome : Type where
  | resolvedO : JSVal → AttemptOutcome
  | rejectedO : JSVal → AttemptOutcome
  | timedOutO : JSVal → AttemptOutcome
  deriving DecidableEq, Repr

/-- The error value a non-resolved outcome throws into `run()`'s `catch`
(`vnull` for a resolution, which throws nothing). -/
def outcomeError : AttemptOutcome → JSVal
  | .resolvedO _ => vnull
  | .rejectedO e => e
  | .timedOutO e => e

/-- The `data` field produced from an outcome (`vnull` unless the
attempt resolved). -/
def AttemptOutcome.dataVal : AttemptOutcome → JSVal
  | .resolvedO v => v
  | .rejectedO _ => vnull
  | .timedOutO _ => vnull

/-- Awaiting the operation promise inside `run()`, with the
`Promise.race` timeout applied when `this.config.timeoutMs` is truthy.
`createdAt` is the promise's creation time, `now` the time the await
starts; the returned time is when the await finishes.  The timer fires
`max ms 0` after `now` (`setTimeout` clamps negative delays); the
operation wins ties.  Awaiting a non-promise value resolves immediately
with it. -/
def awaitOp (cfg : AsyncConfig) (createdAt : ℚ) (v : JSVal) (now : ℚ) :
    AttemptOutcome × ℚ :=
  match v with
  | vpromise dur rej inner =>
      let settleAt := createdAt + dur
      if numTruthy cfg.timeoutMs then
        let ms := cfg.timeoutMs.getD 0
        let fireAt := now + max ms 0
        if settleAt ≤ fireAt then
          (if rej then .rejectedO inner else .resolvedO inner,
           max now settleAt)
        else
          (.timedOutO
            (jsOrVal cfg.timeoutError (verror (timeoutMessage ms))), fireAt)
      else
        (if rej then .rejectedO inner else .resolvedO inner, max now settleAt)
  | other => (.resolvedO other, now)

/-- The operation value awaited by call number `k` of `run()`. -/
def opValue (op : Operation) (k : Nat) : JSVal :=
  match op with
  | .promise p => p
  | .fn f => f k

/-- Creation time of the awaited value: a bare promise was created at
time 0 (before being wrapped); a producer's promise is created at
invocation time. -/
def opCreatedAt (op : Operation) (now : ℚ) : ℚ :=
  match op with
  | .promise _ => 0
  | .fn _ => now

/-- Result of one call of `run()`: the produced `Result`, the underlying
outcome (trace observation), and the clock when `run()` returns. -/
structure RunStep where
  result : JSResult
  outcome : AttemptOutcome
  time : ℚ
  deriving DecidableEq, Repr

/-- Conversion of an await outcome into the `RunStep`: success gives
`{data: value, error: null}`; the `catch` of `run()` turns any thrown
value (rejection or timeout error) into `{data: null, error: e}`. -/
def stepOfOutcome (out : AttemptOutcome) (t : ℚ) : RunStep :=
  match out with
  | .resolvedO v => ⟨⟨v, vnull⟩, out, t⟩
  | .rejectedO e => ⟨⟨vnull, e⟩, out, t⟩
  | .timedOutO e => ⟨⟨vnull, e⟩, out, t⟩

/-- One call of `run()` (the single-attempt execution): obtain the
operation value (invoking the producer when the wrapper holds one),
await it with the optional timeout race, and convert via
`stepOfOutcome`. -/
def runStep (op : Operation) (cfg : AsyncConfig) (k : Nat) (now : ℚ) :
    RunStep :=
  let p := awaitOp cfg (opCreatedAt op now) (opValue op k) now
  stepOfOutcome p.1 p.2

/-- The generic error substituted when no error was recorded:
`new Error('Operation failed after all retry attempts')`. -/
def genericRetryError : JSVal :=
  verror "Operation failed after all retry attempts"

/-- The final failure of `execute()`:
`{data: null, error: error || new Error('Operation failed after all retry attempts')}`. -/
def finalFailure (e : JSVal) : JSResult :=
  ⟨vnull, jsOrErr e genericRetryError⟩

/-- The backoff delay computed for loop iteration `attempt` (1-based):
`2^(attempt-1) * baseDelayMs` when `exponential` is truthy, else
`attempt * baseDelayMs`; capped by `min · (maxDelayMs || 30000)`; then
`+ Math.random() * 1000` when `jitter` is truthy. -/
def backoffDelay (cfg : AsyncConfig) (rand : Nat → ℚ) (attempt : Nat) : ℚ :=
  let b := cfg.baseDelayMs.getD 0
  let raw := if boolTruthy cfg.exponential
             then (2 : ℚ) ^ (attempt - 1) * b
             else (attempt : ℚ) * b
  let capped := min raw (orNum cfg.maxDelayMs 30000)
  if boolTruthy cfg.jitter then capped + rand attempt * 1000 else capped

/-- `maxAttempts = (this.config.maxRetries || 0) + 1`, and the number of
iterations of `for (let attempt = 1; attempt <= maxAttempts; attempt++)`
(zero when `maxAttempts < 1`). -/
def natMaxAttempts (cfg : AsyncConfig) : Nat :=
  (Rat.floor (orNum cfg.maxRetries 0 + 1)).toNat

/-- Execution state threaded through the attempt loop: the clock, the
`error` local of `execute()` (initially `null`), and the observed traces
of attempt outcomes and of durations passed to `Try.sleep`. -/
structure LoopAcc where
  now : ℚ
  lastError : JSVal
  outcomes : List AttemptOutcome
  sleeps : List ℚ

/-- The attempt loop of `execute()`, with `remaining` iterations left and
the current 1-based `attempt` number.  Mirrors the source: run one
attempt; return it on a falsy `result.error`; record the error; break
without delay on the last attempt; otherwise, when `baseDelayMs` is
truthy, sleep the computed backoff delay and continue. -/
def executeLoop (op : Operation) (cfg : AsyncConfig) (rand : Nat → ℚ) :
    Nat → Nat → LoopAcc → JSResult × LoopAcc
  | _, 0, acc => (finalFailure acc.lastError, acc)
  | attempt, r + 1, acc =>
      let s := runStep op cfg attempt acc.now
      let acc1 : LoopAcc :=
        { acc with now := s.time, outcomes := acc.outcomes ++ [s.outcome] }
      if truthy s.result.error = false then (s.result, acc1)
      else
        let acc2 : LoopAcc := { acc1 with lastError := s.result.error }
        if r = 0 then (finalFailure s.result.error, acc2)
        else if numTruthy cfg.baseDelayMs then
          let d := backoffDelay cfg rand attempt
          executeLoop op cfg rand (attempt + 1) r
            { acc2 with now := acc2.now + max d 0,
                        sleeps := acc2.sleeps ++ [d] }
        else executeLoop op cfg rand (attempt + 1) r acc2

/-- `execute()` (what awaiting the handle runs, via `then()`): the
attempt loop started at attempt 1 with a fresh state at time 0. -/
def execute (op : Operation) (cfg : AsyncConfig) (rand : Nat → ℚ) :
    JSResult × LoopAcc :=
  executeLoop op cfg rand 1 (natMaxAttempts cfg) ⟨0, vnull, [], []⟩

/-- Behaviour of a zero-argument function passed to `Try.catch`: it
either throws synchronously or returns a value. -/
inductive SyncBehavior : Type where
  | throwsB : JSVal → SyncBehavior
  | returnsB : JSVal → SyncBehavior

/-- Input to `Try.catch`: a non-function value (e.g. a promise), or a
zero-argument function. -/
inductive CatchInput : Type where
  | valueI : JSVal → CatchInput
  | funcI : SyncBehavior → CatchInput

/-- Output of `Try.catch`: an immediate `Result`, or an
`AsyncOperation` handle. -/
inductive CatchOutput : Type where
  | resultO : JSResult → CatchOutput
  | asyncO : AsyncOperation → CatchOutput

/-- The error thrown on an input that is neither thenable nor a
function, caught by `Try.catch`'s own handler. -/
def invalidInputError : JSVal :=
  verror "Invalid input: expected Promise or function"

/-- `Try.catch`: a thenable value is wrapped in an `AsyncOperation` with
default config; a function is invoked eagerly — a synchronous throw is
caught into an immediate failure `Result`; a thenable return value is
wrapped as a bare promise (the producer itself is NOT stored); any other
return value becomes an immediate success `Result`; a non-thenable
non-function input yields the caught invalid-input error. -/
def tryCatch : CatchInput → CatchOutput
  | .valueI v =>
      if isThenableGuard v then .asyncO ⟨.promise v, {}⟩
      else .resultO ⟨vnull, invalidInputError⟩
  | .funcI (.throwsB e) => .resultO ⟨vnull, e⟩
  | .funcI (.returnsB v) =>
      if isThenableGuard v then .asyncO ⟨.promise v, {}⟩
      else .resultO ⟨v, vnull⟩

/-- Number of times `Try.catch` itself invokes the supplied function
(once, eagerly, for any function input). -/
def catchInvocations : CatchInput → Nat
  | .valueI _ => 0
  | .funcI _ => 1

/-- Number of times one `run()` call invokes the wrapped operation as a
function (a bare promise is never re-invoked). -/
def runInvocations : Operation → Nat
  | .promise _ => 0
  | .fn _ => 1

/-- Number of function invocations performed by the whole attempt loop:
one per attempt when the wrapper holds a producer, none for a bare
promise. -/
def executeInvocations (op : Operation) (acc : LoopAcc) : Nat :=
  acc.outcomes.length * runInvocations op

/-- Rejection values reachable from an operation are non-null (the
hypothesis under which failure paths surface as a non-null `error`). -/
def RejNonNull (op : Operation) : Prop :=
  match op with
  | .promise (vpromise _ true inner) => inner ≠ vnull
  | .promise _ => True
  | .fn f => ∀ k, match f k with
      | vpromise _ true inner => inner ≠ vnull
      | _ => True

end SafeTry

namespace SafeTry

open JSVal

/-! ## Helper lemmas about the embedding -/

lemma truthy_ne_vnull {e : JSVal} (h : truthy e = true) : e ≠ vnull := by
  cases e <;> simp_all [truthy]

lemma rat_floor_eq_intFloor (q : ℚ) : Rat.floor q = ⌊q⌋ := by
  rw [Rat.floor_def', Rat.floor_def]

lemma orNum_some (q d : ℚ) : orNum (some q) d = if q != 0 then q else d := rfl

lemma orNum_none (d : ℚ) : orNum none d = d := rfl

lemma natMaxAttempts_natCast (cfg : AsyncConfig) (n : ℕ)
    (h : cfg.maxRetries = some (n : ℚ)) : natMaxAttempts cfg = n + 1 := by
  unfold natMaxAttempts
  rw [h, orNum_some]
  rcases Nat.eq_zero_or_pos n with hn | hn
  · subst hn
    norm_num [rat_floor_eq_intFloor]
  · have hne : ((n : ℚ) != 0) = true := by
      rw [bne_iff_ne]
      exact_mod_cast hn.ne'
    rw [if_pos hne]
    have hcast : ((n : ℚ) + 1) = ((n + 1 : ℕ) : ℚ) := by push_cast; ring
    rw [hcast, rat_floor_eq_intFloor, Int.floor_natCast]
    simp

lemma natMaxAttempts_none (cfg : AsyncConfig)
    (h : cfg.maxRetries = none) : natMaxAttempts cfg = 1 := by
  unfold natMaxAttempts
  rw [h, orNum_none]
  norm_num [rat_floor_eq_intFloor]

lemma runStep_spec (op : Operation) (cfg : AsyncConfig) (k : Nat) (now : ℚ)
    (out : AttemptOutcome) (t : ℚ)
    (h : awaitOp cfg (opCreatedAt op now) (opValue op k) now = (out, t)) :
    runStep op cfg k now = stepOfOutcome out t := by
  unfold runStep
  rw [h]

lemma runStep_result_outcome (op : Operation) (cfg : AsyncConfig) (k : Nat)
    (now : ℚ) :
    (runStep op cfg k now).result =
      ⟨(runStep op cfg k now).outcome.dataVal,
       outcomeError (runStep op cfg k now).outcome⟩ := by
  rcases h : awaitOp cfg (opCreatedAt op now) (opValue op k) now with ⟨out, t⟩
  rw [runStep_spec op cfg k now out t h]
  cases out <;> rfl

lemma runStep_fail (op : Operation) (cfg : AsyncConfig) (k : Nat) (now : ℚ)
    (h : truthy (runStep op cfg k now).result.error = true) :
    (runStep op cfg k now).result
        = ⟨vnull, outcomeError (runStep op cfg k now).outcome⟩ ∧
      truthy (outcomeError (runStep op cfg k now).outcome) = true := by
  have hro := runStep_result_outcome op cfg k now
  rcases hout : (runStep op cfg k now).outcome with v | e | e <;>
    rw [hout] at hro <;> rw [hro] at h ⊢ <;>
    simp_all [outcomeError, truthy, AttemptOutcome.dataVal]

lemma awaitOp_rejected (cfg : AsyncConfig) (c : ℚ) (v : JSVal) (now : ℚ)
    (e : JSVal) (t : ℚ) (h : awaitOp cfg c v now = (.rejectedO e, t)) :
    ∃ dur, v = vpromise dur true e := by
  cases v <;> simp only [awaitOp] at h
  case vpromise dur rej inner =>
    refine ⟨dur, ?_⟩
    rcases hg : numTruthy cfg.timeoutMs with _ | _ <;> rw [hg] at h <;>
      simp only [Bool.false_eq_true, if_false, if_true] at h
    · cases rej <;> simp_all
    · split at h
      · cases rej <;> simp_all
      · simp_all
  all_goals simp_all

lemma awaitOp_timedOut (cfg : AsyncConfig) (c : ℚ) (v : JSVal) (now : ℚ)
    (e : JSVal) (t : ℚ) (h : awaitOp cfg c v now = (.timedOutO e, t)) :
    e = jsOrVal cfg.timeoutError
          (verror (timeoutMessage (cfg.timeoutMs.getD 0))) := by
  cases v <;> simp only [awaitOp] at h
  case vpromise dur rej inner =>
    rcases hg : numTruthy cfg.timeoutMs with _ | _ <;> rw [hg] at h <;>
      simp only [Bool.false_eq_true, if_false, if_true] at h
    · cases rej <;> simp_all
    · split at h
      · cases rej <;> simp_all
      · simp_all
  all_goals simp_all

lemma jsOrVal_verror_ne_vnull (o : Option JSVal) (s : String) :
    jsOrVal o (verror s) ≠ vnull := by
  cases o with
  | none => simp [jsOrVal]
  | some v =>
      show (if truthy v = true then v else verror s) ≠ vnull
      by_cases hv : truthy v = true
      · rw [if_pos hv]
        exact truthy_ne_vnull hv
      · rw [if_neg hv]
        simp

lemma rejNonNull_promise (p : JSVal) (h : RejNonNull (.promise p))
    (dur : ℚ) (e : JSVal) (hp : p = vpromise dur true e) : e ≠ vnull := by
  subst hp
  exact h

lemma rejNonNull_fn (f : Nat → JSVal) (h : RejNonNull (.fn f)) (k : Nat)
    (dur : ℚ) (e : JSVal) (hp : f k = vpromise dur true e) : e ≠ vnull := by
  have hk : (match f k with
      | vpromise _ true inner => inner ≠ vnull
      | _ => True) := h k
  rw [hp] at hk
  exact hk

lemma runStep_rejected_nonNull (op : Operation) (cfg : AsyncConfig) (k : Nat)
    (now : ℚ) (hrej : RejNonNull op) (e : JSVal)
    (h : (runStep op cfg k now).outcome = .rejectedO e) : e ≠ vnull := by
  rcases hA : awaitOp cfg (opCreatedAt op now) (opValue op k) now with ⟨out, t⟩
  rw [runStep_spec op cfg k now out t hA] at h
  have hout : out = .rejectedO e := by cases out <;> simp_all [stepOfOutcome]
  subst hout
  obtain ⟨dur, hv⟩ := awaitOp_rejected cfg _ _ now e t hA
  cases op with
  | promise p =>
      simp only [opValue] at hv
      exact rejNonNull_promise p hrej dur e hv
  | fn f =>
      simp only [opValue] at hv
      exact rejNonNull_fn f hrej k dur e hv

lemma runStep_nonresolved_error_ne_vnull (op : Operation) (cfg : AsyncConfig)
    (k : Nat) (now : ℚ) (hrej : RejNonNull op)
    (h : ∀ v, (runStep op cfg k now).outcome ≠ .resolvedO v) :
    (runStep op cfg k now).result.error ≠ vnull := by
  rcases hout : (runStep op cfg k now).outcome with v | e | e
  · exact absurd hout (h v)
  · have hres := runStep_result_outcome op cfg k now
    rw [hout] at hres
    rw [hres]
    exact runStep_rejected_nonNull op cfg k now hrej e hout
  · have hres := runStep_result_outcome op cfg k now
    rw [hout] at hres
    rw [hres]
    rcases hA : awaitOp cfg (opCreatedAt op now) (opValue op k) now with ⟨out, t⟩
    have hspec := runStep_spec op cfg k now out t hA
    rw [hspec] at hout
    have : out = .timedOutO e := by cases out <;> simp_all [stepOfOutcome]
    subst this
    have := awaitOp_timedOut cfg _ _ now e t hA
    simp only [outcomeError, this]
    exact jsOrVal_verror_ne_vnull _ _

lemma finalFailure_truthy (e : JSVal) (h : truthy e = true) :
    finalFailure e = ⟨vnull, e⟩ := by
  unfold finalFailure jsOrErr
  rw [if_pos h]

lemma executeLoop_zero (op : Operation) (cfg : AsyncConfig) (rand : Nat → ℚ)
    (attempt : Nat) (acc : LoopAcc) :
    executeLoop op cfg rand attempt 0 acc = (finalFailure acc.lastError, acc) :=
  rfl

lemma executeLoop_succ (op : Operation) (cfg : AsyncConfig) (rand : Nat → ℚ)
    (attempt r : Nat) (acc : LoopAcc) :
    executeLoop op cfg rand attempt (r + 1) acc =
      if truthy (runStep op cfg attempt acc.now).result.error = false then
        ((runStep op cfg attempt acc.now).result,
         { now := (runStep op cfg attempt acc.now).time
           lastError := acc.lastError
           outcomes := acc.outcomes ++ [(runStep op cfg attempt acc.now).outcome]
           sleeps := acc.sleeps })
      else if r = 0 then
        (finalFailure (runStep op cfg attempt acc.now).result.error,
         { now := (runStep op cfg attempt acc.now).time
           lastError := (runStep op cfg attempt acc.now).result.error
           outcomes := acc.outcomes ++ [(runStep op cfg attempt acc.now).outcome]
           sleeps := acc.sleeps })
      else if numTruthy cfg.baseDelayMs then
        executeLoop op cfg rand (attempt + 1) r
          { now := (runStep op cfg attempt acc.now).time
                     + max (backoffDelay cfg rand attempt) 0
            lastError := (runStep op cfg attempt acc.now).result.error
            outcomes := acc.outcomes ++ [(runStep op cfg attempt acc.now).outcome]
            sleeps := acc.sleeps ++ [backoffDelay cfg rand attempt] }
      else
        executeLoop op cfg rand (attempt + 1) r
          { now := (runStep op cfg attempt acc.now).time
            lastError := (runStep op cfg attempt acc.now).result.error
            outcomes := acc.outcomes ++ [(runStep op cfg attempt acc.now).outcome]
            sleeps := acc.sleeps } :=
  rfl

lemma executeLoop_allFail (op : Operation) (cfg : AsyncConfig) (rand : Nat → ℚ)
    (H : ∀ k now, truthy (runStep op cfg k now).result.error = true) :
    ∀ r, 1 ≤ r → ∀ attempt acc,
      ((executeLoop op cfg rand attempt r acc).2.outcomes.length
          = acc.outcomes.length + r) ∧
      ∃ out, (executeLoop op cfg rand attempt r acc).2.outcomes.getLast?
               = some out ∧
        truthy (outcomeError out) = true ∧
        (executeLoop op cfg rand attempt r acc).1
          = ⟨vnull, outcomeError out⟩ ∧
        ∃ k t, out = (runStep op cfg k t).outcome := by
  intro r
  induction r with
  | zero => intro h; exact absurd h (by omega)
  | succ r ih =>
      intro _ attempt acc
      rw [executeLoop_succ]
      have hs := H attempt acc.now
      rw [if_neg (by simp [hs])]
      obtain ⟨hres, htr⟩ := runStep_fail op cfg attempt acc.now hs
      rcases Nat.eq_zero_or_pos r with h0 | hpos
      · subst h0
        rw [if_pos rfl]
        constructor
        · simp
        · refine ⟨(runStep op cfg attempt acc.now).outcome, ?_, htr, ?_,
            attempt, acc.now, rfl⟩
          · simp
          · rw [finalFailure_truthy _ (by rw [hres]; exact htr)]
            rw [hres]
      · rw [if_neg (by omega)]
        by_cases hb : numTruthy cfg.baseDelayMs = true
        · rw [if_pos hb]
          obtain ⟨hlen, out, hlast, htr2, hval, hsrc⟩ :=
            ih (by omega) (attempt + 1)
            { now := (runStep op cfg attempt acc.now).time
                       + max (backoffDelay cfg rand attempt) 0
              lastError := (runStep op cfg attempt acc.now).result.error
              outcomes := acc.outcomes ++ [(runStep op cfg attempt acc.now).outcome]
              sleeps := acc.sleeps ++ [backoffDelay cfg rand attempt] }
          refine ⟨?_, out, hlast, htr2, hval, hsrc⟩
          simp at hlen
          simp [hlen]
          omega
        · rw [if_neg hb]
          obtain ⟨hlen, out, hlast, htr2, hval, hsrc⟩ :=
            ih (by omega) (attempt + 1)
            { now := (runStep op cfg attempt acc.now).time
              lastError := (runStep op cfg attempt acc.now).result.error
              outcomes := acc.outcomes ++ [(runStep op cfg attempt acc.now).outcome]
              sleeps := acc.sleeps }
          refine ⟨?_, out, hlast, htr2, hval, hsrc⟩
          simp at hlen
          simp [hlen]
          omega

lemma range_map_shift (f : Nat → ℚ) (a r : Nat) (hr : 1 ≤ r) :
    (List.range r).map (fun i => f (a + i))
      = f a :: (List.range (r - 1)).map (fun i => f (a + 1 + i)) := by
  obtain ⟨m, rfl⟩ : ∃ m, r = m + 1 := ⟨r - 1, by omega⟩
  rw [List.range_succ_eq_map]
  simp only [List.map_cons, Nat.add_zero, List.map_map, Nat.add_sub_cancel]
  congr 1
  apply List.map_congr_left
  intro i _
  simp only [Function.comp_apply]
  congr 1
  omega

lemma executeLoop_sleeps (op : Operation) (cfg : AsyncConfig) (rand : Nat → ℚ)
    (H : ∀ k now, truthy (runStep op cfg k now).result.error = true)
    (hb : numTruthy cfg.baseDelayMs = true) :
    ∀ r, 1 ≤ r → ∀ attempt acc,
      (executeLoop op cfg rand attempt r acc).2.sleeps
        = acc.sleeps ++ (List.range (r - 1)).map
            (fun i => backoffDelay cfg rand (attempt + i)) := by
  intro r
  induction r with
  | zero => intro h; exact absurd h (by omega)
  | succ r ih =>
      intro _ attempt acc
      rw [executeLoop_succ]
      have hs := H attempt acc.now
      rw [if_neg (by simp [hs])]
      rcases Nat.eq_zero_or_pos r with h0 | hpos
      · subst h0
        rw [if_pos rfl]
        simp
      · rw [if_neg (by omega), if_pos hb]
        rw [ih (by omega) (attempt + 1) _]
        rw [Nat.add_sub_cancel]
        rw [range_map_shift (backoffDelay cfg rand) attempt r hpos]
        simp

lemma jsOrErr_generic_ne_vnull (e : JSVal) :
    jsOrErr e genericRetryError ≠ vnull := by
  unfold jsOrErr
  by_cases h : truthy e = true
  · rw [if_pos h]
    exact truthy_ne_vnull h
  · rw [if_neg h]
    simp [genericRetryError]

lemma stepOfOutcome_outcome (out : AttemptOutcome) (t : ℚ) :
    (stepOfOutcome out t).outcome = out := by
  cases out <;> rfl

lemma runStep_outcome_eq (op : Operation) (cfg : AsyncConfig) (k : Nat)
    (now : ℚ) :
    (runStep op cfg k now).outcome
      = (awaitOp cfg (opCreatedAt op now) (opValue op k) now).1 := by
  unfold runStep
  rw [stepOfOutcome_outcome]

lemma runStep_not_resolved_of_truthy (op : Operation) (cfg : AsyncConfig)
    (k : Nat) (now : ℚ)
    (h : truthy (runStep op cfg k now).result.error = true) :
    ∀ v, (runStep op cfg k now).outcome ≠ .resolvedO v := by
  intro v hv
  have hres := runStep_result_outcome op cfg k now
  rw [hv] at hres
  rw [hres] at h
  simp [outcomeError, truthy] at h

lemma executeLoop_errNull (op : Operation) (cfg : AsyncConfig)
    (rand : Nat → ℚ) (hrej : RejNonNull op) :
    ∀ r attempt acc,
      (∀ v, acc.outcomes.getLast? ≠ some (.resolvedO v)) →
      (((executeLoop op cfg rand attempt r acc).1.error = vnull ↔
         ∃ v, (executeLoop op cfg rand attempt r acc).2.outcomes.getLast?
                = some (.resolvedO v)) ∧
       ∀ v, (executeLoop op cfg rand attempt r acc).2.outcomes.getLast?
               = some (.resolvedO v) →
          (executeLoop op cfg rand attempt r acc).1 = ⟨v, vnull⟩) := by
  intro r
  induction r with
  | zero =>
      intro attempt acc hinv
      rw [executeLoop_zero]
      refine ⟨⟨fun h => absurd h (jsOrErr_generic_ne_vnull _), ?_⟩, ?_⟩
      · rintro ⟨v, hv⟩
        exact absurd hv (hinv v)
      · intro v hv
        exact absurd hv (hinv v)
  | succ r ih =>
      intro attempt acc hinv
      rw [executeLoop_succ]
      by_cases hs : truthy (runStep op cfg attempt acc.now).result.error = false
      · rw [if_pos hs]
        have hres := runStep_result_outcome op cfg attempt acc.now
        rcases hout : (runStep op cfg attempt acc.now).outcome with v | e | e <;>
          rw [hout] at hres
        · refine ⟨⟨fun _ => ⟨v, by simp [hout]⟩, fun _ => by rw [hres]; rfl⟩, ?_⟩
          intro w hw
          simp [hout] at hw
          subst hw
          rw [hres]
          rfl
        · have hne : (runStep op cfg attempt acc.now).result.error ≠ vnull :=
            runStep_nonresolved_error_ne_vnull op cfg attempt acc.now hrej
              (by intro w hw; rw [hout] at hw; exact absurd hw (by simp))
          refine ⟨⟨fun h => absurd h hne, ?_⟩, ?_⟩
          · rintro ⟨w, hw⟩
            simp [hout] at hw
          · intro w hw
            simp [hout] at hw
        · have hne : (runStep op cfg attempt acc.now).result.error ≠ vnull :=
            runStep_nonresolved_error_ne_vnull op cfg attempt acc.now hrej
              (by intro w hw; rw [hout] at hw; exact absurd hw (by simp))
          refine ⟨⟨fun h => absurd h hne, ?_⟩, ?_⟩
          · rintro ⟨w, hw⟩
            simp [hout] at hw
          · intro w hw
            simp [hout] at hw
      · rw [if_neg hs]
        have hs' : truthy (runStep op cfg attempt acc.now).result.error
            = true := by
          revert hs
          cases truthy (runStep op cfg attempt acc.now).result.error <;> simp
        have hnr := runStep_not_resolved_of_truthy op cfg attempt acc.now hs'
        rcases Nat.eq_zero_or_pos r with h0 | hpos
        · subst h0
          rw [if_pos rfl]
          refine ⟨⟨fun h => absurd h ?_, ?_⟩, ?_⟩
          · exact jsOrErr_generic_ne_vnull _
          · rintro ⟨w, hw⟩
            simp at hw
            exact absurd hw (hnr w)
          · intro w hw
            simp at hw
            exact absurd hw (hnr w)
        · rw [if_neg (by omega)]
          have hinv2 : ∀ (v : JSVal),
              (acc.outcomes
                ++ [(runStep op cfg attempt acc.now).outcome]).getLast?
                ≠ some (.resolvedO v) := by
            intro w hw
            simp at hw
            exact absurd hw (hnr w)
          by_cases hb : numTruthy cfg.baseDelayMs = true
          · rw [if_pos hb]
            exact ih (attempt + 1) _ hinv2
          · rw [if_neg hb]
            exact ih (attempt + 1) _ hinv2

lemma executeLoop_excl (op : Operation) (cfg : AsyncConfig) (rand : Nat → ℚ) :
    ∀ r attempt acc,
      (executeLoop op cfg rand attempt r acc).1.data = vnull ∨
      (executeLoop op cfg rand attempt r acc).1.error = vnull := by
  intro r
  induction r with
  | zero =>
      intro attempt acc
      rw [executeLoop_zero]
      left
      rfl
  | succ r ih =>
      intro attempt acc
      rw [executeLoop_succ]
      by_cases hs : truthy (runStep op cfg attempt acc.now).result.error = false
      · rw [if_pos hs]
        have hres := runStep_result_outcome op cfg attempt acc.now
        rcases hout : (runStep op cfg attempt acc.now).outcome with v | e | e <;>
          rw [hout] at hres <;> rw [hres]
        · right
          rfl
        · left
          rfl
        · left
          rfl
      · rw [if_neg hs]
        rcases Nat.eq_zero_or_pos r with h0 | hpos
        · subst h0
          rw [if_pos rfl]
          left
          rfl
        · rw [if_neg (by omega)]
          by_cases hb : numTruthy cfg.baseDelayMs = true
          · rw [if_pos hb]
            exact ih (attempt + 1) _
          · rw [if_neg hb]
            exact ih (attempt + 1) _

lemma awaitOp_congr (cfg cfg' : AsyncConfig) (c : ℚ) (v : JSVal) (now : ℚ)
    (h1 : numTruthy cfg.timeoutMs = false)
    (h2 : numTruthy cfg'.timeoutMs = false) :
    awaitOp cfg c v now = awaitOp cfg' c v now := by
  cases v <;> simp [awaitOp, h1, h2]

lemma runStep_congr (op : Operation) (cfg cfg' : AsyncConfig) (k : Nat)
    (now : ℚ) (h1 : numTruthy cfg.timeoutMs = false)
    (h2 : numTruthy cfg'.timeoutMs = false) :
    runStep op cfg k now = runStep op cfg' k now := by
  unfold runStep
  rw [awaitOp_congr cfg cfg' (opCreatedAt op now) (opValue op k) now h1 h2]

lemma backoffDelay_congr (cfg cfg' : AsyncConfig) (rand : Nat → ℚ)
    (hb : cfg.baseDelayMs = cfg'.baseDelayMs)
    (hex : cfg.exponential = cfg'.exponential)
    (hm : cfg.maxDelayMs = cfg'.maxDelayMs)
    (hj : cfg.jitter = cfg'.jitter) :
    backoffDelay cfg rand = backoffDelay cfg' rand := by
  funext attempt
  unfold backoffDelay
  rw [hb, hex, hm, hj]

lemma executeLoop_congr (op : Operation) (cfg cfg' : AsyncConfig)
    (rand : Nat → ℚ)
    (h1 : numTruthy cfg.timeoutMs = false)
    (h2 : numTruthy cfg'.timeoutMs = false)
    (hb : cfg.baseDelayMs = cfg'.baseDelayMs)
    (hex : cfg.exponential = cfg'.exponential)
    (hm : cfg.maxDelayMs = cfg'.maxDelayMs)
    (hj : cfg.jitter = cfg'.jitter) :
    ∀ r attempt acc,
      executeLoop op cfg rand attempt r acc
        = executeLoop op cfg' rand attempt r acc := by
  intro r
  induction r with
  | zero =>
      intro attempt acc
      rw [executeLoop_zero, executeLoop_zero]
  | succ r ih =>
      intro attempt acc
      rw [executeLoop_succ, executeLoop_succ]
      rw [runStep_congr op cfg cfg' attempt acc.now h1 h2]
      rw [backoffDelay_congr cfg cfg' rand hb hex hm hj]
      rw [hb]
      by_cases hcond :
          truthy (runStep op cfg' attempt acc.now).result.error = false
      · rw [if_pos hcond, if_pos hcond]
      · rw [if_neg hcond, if_neg hcond]
        rcases Nat.eq_zero_or_pos r with h0 | hpos
        · subst h0
          rw [if_pos rfl, if_pos rfl]
        · have hr0 : ¬(r = 0) := by omega
          rw [if_neg hr0, if_neg hr0]
          by_cases hbd : numTruthy cfg'.baseDelayMs = true
          · rw [if_pos hbd, if_pos hbd, ih]
          · rw [if_neg hbd, if_neg hbd, ih]

lemma awaitOp_no_timeout (cfg : AsyncConfig)
    (h : numTruthy cfg.timeoutMs = false) (c : ℚ) (v : JSVal) (now : ℚ) :
    ∀ e, (awaitOp cfg c v now).1 ≠ .timedOutO e := by
  intro e
  cases v <;> simp [awaitOp, h]
  case vpromise dur rej inner => cases rej <;> simp

lemma executeLoop_no_timeout (op : Operation) (cfg : AsyncConfig)
    (rand : Nat → ℚ) (h : numTruthy cfg.timeoutMs = false) :
    ∀ r attempt acc,
      (∀ out ∈ acc.outcomes, ∀ e, out ≠ .timedOutO e) →
      ∀ out ∈ (executeLoop op cfg rand attempt r acc).2.outcomes,
        ∀ e, out ≠ .timedOutO e := by
  intro r
  induction r with
  | zero =>
      intro attempt acc hacc
      rw [executeLoop_zero]
      exact hacc
  | succ r ih =>
      intro attempt acc hacc
      have hstep : ∀ out ∈ acc.outcomes
            ++ [(runStep op cfg attempt acc.now).outcome],
          ∀ e, out ≠ .timedOutO e := by
        intro out hmem e
        rcases List.mem_append.mp hmem with hin | hin
        · exact hacc out hin e
        · have : out = (runStep op cfg attempt acc.now).outcome := by
            simpa using hin
          subst this
          rw [runStep_outcome_eq]
          exact awaitOp_no_timeout cfg h (opCreatedAt op acc.now)
            (opValue op attempt) acc.now e
      rw [executeLoop_succ]
      by_cases hs : truthy (runStep op cfg attempt acc.now).result.error = false
      · rw [if_pos hs]
        exact hstep
      · rw [if_neg hs]
        rcases Nat.eq_zero_or_pos r with h0 | hpos
        · subst h0
          rw [if_pos rfl]
          exact hstep
        · rw [if_neg (by omega)]
          by_cases hbd : numTruthy cfg.baseDelayMs = true
          · rw [if_pos hbd]
            exact ih (attempt + 1) _ hstep
          · rw [if_neg hbd]
            exact ih (attempt + 1) _ hstep

/-! ## Claim theorems -/

/-- C4 (amended): for every input to `Try.catch` and every awaited handle,
the `data` and `error` fields of the produced `Result` are never both
non-null: at least one of them is always `null`.  (The original claim's
"never both null" part fails: see the counterexample, where a function
returning `null` yields `{data: null, error: null}`.) -/
theorem c4_data_error_never_both_nonnull :
    (∀ input : CatchInput,
        match tryCatch input with
        | .resultO r => r.data = vnull ∨ r.error = vnull
        | .asyncO _ => True) ∧
    ∀ (op : Operation) (cfg : AsyncConfig) (rand : Nat → ℚ),
      (execute op cfg rand).1.data = vnull ∨
      (execute op cfg rand).1.error = vnull := by
  constructor
  · intro input
    cases input with
    | valueI v =>
        simp only [tryCatch]
        by_cases h : isThenableGuard v = true
        · rw [if_pos h]
          exact trivial
        · rw [if_neg h]
          left
          rfl
    | funcI b =>
        cases b with
        | throwsB e =>
            left
            rfl
        | returnsB v =>
            simp only [tryCatch]
            by_cases h : isThenableGuard v = true
            · rw [if_pos h]
              exact trivial
            · rw [if_neg h]
              right
              rfl
  · intro op cfg rand
    exact executeLoop_excl op cfg rand (natMaxAttempts cfg) 1 ⟨0, vnull, [], []⟩

/-- C4 counterexample: `Try.catch(() => null)` produces
`{data: null, error: null}` — both fields are null at once, refuting the
claim's "never both null". -/
theorem c4_counterexample_both_null :
    tryCatch (.funcI (.returnsB vnull)) = .resultO ⟨vnull, vnull⟩ := rfl

/-- C5: a function that throws synchronously is caught by `Try.catch`
into an immediate `{data: null, error: <caught>}`, and a function
returning a plain (non-thenable) value yields an immediate
`{data: <value>, error: null}`; no exception propagates. -/
theorem c5_sync_catch (e v : JSVal) (hv : hasThen v = false) :
    tryCatch (.funcI (.throwsB e)) = .resultO ⟨vnull, e⟩ ∧
    tryCatch (.funcI (.returnsB v)) = .resultO ⟨v, vnull⟩ := by
  constructor
  · rfl
  · simp [tryCatch, isThenableGuard, hv]

/-- C5 witness: concrete instances of both sync paths. -/
theorem c5_sync_catch_witness :
    hasThen (vnum 3) = false ∧
    (tryCatch (.funcI (.throwsB (verror "x"))) = .resultO ⟨vnull, verror "x"⟩ ∧
     tryCatch (.funcI (.returnsB (vnum 3))) = .resultO ⟨vnum 3, vnull⟩) :=
  ⟨rfl, c5_sync_catch (verror "x") (vnum 3) rfl⟩

/-- C8 (amended): each configuration call returns a new handle whose
configuration is the prior configuration with every key of the calling
method's group overwritten (`withTimeout`: `timeoutMs` and
`timeoutError`; `withRetry`: `maxRetries`; `withBackoff`: all four
backoff keys), where an omitted optional argument overwrites the key
with "unset"; keys outside the calling method's group keep their earlier
values, and repeating a method applies only the last call's values. -/
theorem c8_config_merge (o : AsyncOperation) (ms ms' : ℚ)
    (e e' : Option JSVal) (n n' : ℚ) (opts opts' : BackoffOptions) :
    ((o.withTimeout ms e).withTimeout ms' e').config
        = (o.withTimeout ms' e').config ∧
    ((o.withRetry n).withRetry n').config = (o.withRetry n').config ∧
    ((o.withBackoff opts).withBackoff opts').config
        = (o.withBackoff opts').config ∧
    (o.withTimeout ms e).operation = o.operation ∧
    (o.withRetry n).operation = o.operation ∧
    (o.withBackoff opts).operation = o.operation ∧
    ((o.withTimeout ms e).withRetry n).config.timeoutMs = some ms ∧
    ((o.withTimeout ms e).withRetry n).config.timeoutError = e ∧
    ((o.withRetry n).withTimeout ms e).config.maxRetries = some n ∧
    ((o.withBackoff opts).withRetry n).config.baseDelayMs
        = some opts.baseDelayMs ∧
    ((o.withBackoff opts).withRetry n).config.exponential
        = opts.exponential ∧
    ((o.withBackoff opts).withRetry n).config.maxDelayMs
        = opts.maxDelayMs ∧
    ((o.withBackoff opts).withRetry n).config.jitter = opts.jitter ∧
    ((o.withRetry n).withBackoff opts).config.maxRetries = some n ∧
    ((o.withBackoff opts).withTimeout ms e).config.baseDelayMs
        = some opts.baseDelayMs :=
  ⟨rfl, rfl, rfl, rfl, rfl, rfl, rfl, rfl, rfl, rfl, rfl, rfl, rfl, rfl, rfl⟩

/-- C8 counterexample: a later `withBackoff` call that omits
`exponential` does not keep the earlier value — it clears it; likewise a
later `withTimeout` without a custom error clears `timeoutError`.  Keys
not named by the later call do NOT keep their earlier values. -/
theorem c8_counterexample_clobber :
    ((AsyncOperation.mk (.promise vobj) {}).withBackoff
        ⟨3, some true, none, none⟩).config.exponential = some true ∧
    (((AsyncOperation.mk (.promise vobj) {}).withBackoff
        ⟨3, some true, none, none⟩).withBackoff
        ⟨5, none, none, none⟩).config.exponential = none ∧
    ((AsyncOperation.mk (.promise vobj) {}).withTimeout 100
        (some (verror "custom"))).config.timeoutError
        = some (verror "custom") ∧
    (((AsyncOperation.mk (.promise vobj) {}).withTimeout 100
        (some (verror "custom"))).withTimeout 200 none).config.timeoutError
        = none :=
  ⟨rfl, rfl, rfl, rfl⟩

/-- C2 (amended): with `withRetry(n)` (`maxRetries = some n`, `n` a
natural number) over an operation whose every single-attempt execution
fails with a JS-truthy error value, `run()` is performed exactly `n + 1`
times (`maxAttempts = maxRetries + 1`, at least 1) and the loop ends in
the failure Result; an attempt whose `result.error` is falsy — a genuine
success, or a failure with a falsy error value, which `!result.error`
cannot distinguish — returns immediately after one attempt with no
further attempts. -/
theorem c2_retry_attempt_count (n m : ℕ) (op op' : Operation)
    (cfg cfg' : AsyncConfig) (rand rand' : Nat → ℚ)
    (hn : cfg.maxRetries = some (n : ℚ))
    (H : ∀ k now, truthy (runStep op cfg k now).result.error = true)
    (hm : cfg'.maxRetries = some (m : ℚ))
    (hsucc : truthy (runStep op' cfg' 1 0).result.error = false) :
    (execute op cfg rand).2.outcomes.length = n + 1 ∧
    (execute op cfg rand).1.data = vnull ∧
    truthy (execute op cfg rand).1.error = true ∧
    (execute op' cfg' rand').2.outcomes.length = 1 ∧
    (execute op' cfg' rand').1 = (runStep op' cfg' 1 0).result := by
  obtain ⟨hlen, out, hlast, htr, hres, hsrc⟩ :=
    executeLoop_allFail op cfg rand H (natMaxAttempts cfg)
      (by rw [natMaxAttempts_natCast cfg n hn]; omega) 1 ⟨0, vnull, [], []⟩
  refine ⟨?_, ?_, ?_, ?_, ?_⟩
  · show (executeLoop op cfg rand 1 (natMaxAttempts cfg)
        ⟨0, vnull, [], []⟩).2.outcomes.length = n + 1
    rw [hlen, natMaxAttempts_natCast cfg n hn]
    simp
  · show (executeLoop op cfg rand 1 (natMaxAttempts cfg)
        ⟨0, vnull, [], []⟩).1.data = vnull
    rw [hres]
  · show truthy (executeLoop op cfg rand 1 (natMaxAttempts cfg)
        ⟨0, vnull, [], []⟩).1.error = true
    rw [hres]
    exact htr
  · show (executeLoop op' cfg' rand' 1 (natMaxAttempts cfg')
        ⟨0, vnull, [], []⟩).2.outcomes.length = 1
    rw [natMaxAttempts_natCast cfg' m hm, executeLoop_succ, if_pos hsucc]
    rfl
  · show (executeLoop op' cfg' rand' 1 (natMaxAttempts cfg')
        ⟨0, vnull, [], []⟩).1 = (runStep op' cfg' 1 0).result
    rw [natMaxAttempts_natCast cfg' m hm, executeLoop_succ, if_pos hsucc]

/-- C2 witness: a promise rejecting with `Error("boom")` under
`withRetry(3)` runs 4 attempts and fails; a promise resolving `7` under
`withRetry(2)` runs exactly 1 attempt. -/
theorem c2_retry_attempt_count_witness :
    (execute (.promise (vpromise 0 true (verror "boom")))
        { maxRetries := some (3 : ℚ) } (fun _ => 0)).2.outcomes.length
      = 3 + 1 ∧
    (execute (.promise (vpromise 0 true (verror "boom")))
        { maxRetries := some (3 : ℚ) } (fun _ => 0)).1.data = vnull ∧
    truthy (execute (.promise (vpromise 0 true (verror "boom")))
        { maxRetries := some (3 : ℚ) } (fun _ => 0)).1.error = true ∧
    (execute (.promise (vpromise 0 false (vnum 7)))
        { maxRetries := some (2 : ℚ) } (fun _ => 0)).2.outcomes.length = 1 ∧
    (execute (.promise (vpromise 0 false (vnum 7)))
        { maxRetries := some (2 : ℚ) } (fun _ => 0)).1
      = (runStep (.promise (vpromise 0 false (vnum 7)))
          { maxRetries := some (2 : ℚ) } 1 0).result :=
  c2_retry_attempt_count 3 2 (.promise (vpromise 0 true (verror "boom")))
    (.promise (vpromise 0 false (vnum 7)))
    { maxRetries := some (3 : ℚ) } { maxRetries := some (2 : ℚ) }
    (fun _ => 0) (fun _ => 0) (by norm_num) (fun _ _ => rfl)
    (by norm_num) rfl

lemma runStep_no_timeout_promise (cfg : AsyncConfig)
    (h : numTruthy cfg.timeoutMs = false) (dur : ℚ) (rej : Bool)
    (inner : JSVal) (k : Nat) (now : ℚ) :
    runStep (.promise (vpromise dur rej inner)) cfg k now
      = stepOfOutcome (if rej then .rejectedO inner else .resolvedO inner)
          (max now dur) := by
  apply runStep_spec
  simp [awaitOp, opCreatedAt, opValue, h]

lemma execute_succ (op : Operation) (cfg : AsyncConfig) (rand : Nat → ℚ)
    (n : Nat) (h : natMaxAttempts cfg = n + 1) :
    execute op cfg rand =
      if truthy (runStep op cfg 1 0).result.error = false then
        ((runStep op cfg 1 0).result,
         ⟨(runStep op cfg 1 0).time, vnull, [(runStep op cfg 1 0).outcome],
          []⟩)
      else if n = 0 then
        (finalFailure (runStep op cfg 1 0).result.error,
         ⟨(runStep op cfg 1 0).time, (runStep op cfg 1 0).result.error,
          [(runStep op cfg 1 0).outcome], []⟩)
      else if numTruthy cfg.baseDelayMs then
        executeLoop op cfg rand 2 n
          ⟨(runStep op cfg 1 0).time + max (backoffDelay cfg rand 1) 0,
           (runStep op cfg 1 0).result.error,
           [(runStep op cfg 1 0).outcome], [backoffDelay cfg rand 1]⟩
      else
        executeLoop op cfg rand 2 n
          ⟨(runStep op cfg 1 0).time, (runStep op cfg 1 0).result.error,
           [(runStep op cfg 1 0).outcome], []⟩ := by
  unfold execute
  rw [h, executeLoop_succ]
  rfl

/-- C2 counterexample: `withRetry(3)` over an operation that always
rejects with the falsy value `0` performs exactly ONE attempt, not four:
the loop's `!result.error` check treats the falsy-error failure as a
success and returns it immediately. -/
theorem c2_counterexample_falsy_error :
    (execute (.promise (vpromise 0 true (vnum 0)))
        { maxRetries := some (3 : ℚ) } (fun _ => 0)).2.outcomes.length = 1 ∧
    (execute (.promise (vpromise 0 true (vnum 0)))
        { maxRetries := some (3 : ℚ) } (fun _ => 0)).1 = ⟨vnull, vnum 0⟩ ∧
    (1 : Nat) ≠ 3 + 1 := by
  have hrs : runStep (.promise (vpromise 0 true (vnum 0)))
      { maxRetries := some (3 : ℚ) } 1 0
        = stepOfOutcome (.rejectedO (vnum 0)) 0 := by
    rw [runStep_no_timeout_promise { maxRetries := some (3 : ℚ) } rfl
      0 true (vnum 0) 1 0]
    simp
  rw [execute_succ _ _ _ 3
    (natMaxAttempts_natCast { maxRetries := some (3 : ℚ) } 3 (by norm_num))]
  rw [hrs]
  rw [if_pos (by simp [stepOfOutcome, truthy])]
  refine ⟨rfl, rfl, by omega⟩

/-- C9: for any configuration whose attempt loop runs at least once,
when every attempt fails with a truthy error the final Result carries
exactly the last attempt's error value, verbatim — no wrapping or
aggregation; the generic "Operation failed after all retry attempts"
error is substituted only when the attempt loop never ran (zero
computed attempts, the only case in which no error was recorded). -/
theorem c9_last_error_verbatim (op : Operation) (cfg : AsyncConfig)
    (rand : Nat → ℚ) (hn : 1 ≤ natMaxAttempts cfg)
    (H : ∀ k now, truthy (runStep op cfg k now).result.error = true) :
    (∃ out, (execute op cfg rand).2.outcomes.getLast? = some out ∧
        (execute op cfg rand).1 = ⟨vnull, outcomeError out⟩) ∧
    ∀ (op2 : Operation) (cfg2 : AsyncConfig) (rand2 : Nat → ℚ),
      natMaxAttempts cfg2 = 0 →
      (execute op2 cfg2 rand2).2.outcomes = [] ∧
      (execute op2 cfg2 rand2).1 = ⟨vnull, genericRetryError⟩ := by
  constructor
  · obtain ⟨hlen, out, hlast, htr, hres, hsrc⟩ :=
      executeLoop_allFail op cfg rand H (natMaxAttempts cfg) hn
        1 ⟨0, vnull, [], []⟩
    exact ⟨out, hlast, hres⟩
  · intro op2 cfg2 rand2 h0
    have hunf : execute op2 cfg2 rand2
        = executeLoop op2 cfg2 rand2 1 0 ⟨0, vnull, [], []⟩ := by
      unfold execute
      rw [h0]
    rw [hunf, executeLoop_zero]
    exact ⟨rfl, rfl⟩

/-- C9 witness: a promise rejecting with `Error("bad")` under
`withRetry(1)`: the final error is the last attempt's error, verbatim. -/
theorem c9_last_error_verbatim_witness :
    (∃ out, (execute (.promise (vpromise 0 true (verror "bad")))
        { maxRetries := some (1 : ℚ) } (fun _ => 0)).2.outcomes.getLast?
          = some out ∧
      (execute (.promise (vpromise 0 true (verror "bad")))
          { maxRetries := some (1 : ℚ) } (fun _ => 0)).1
        = ⟨vnull, outcomeError out⟩) ∧
    ∀ (op2 : Operation) (cfg2 : AsyncConfig) (rand2 : Nat → ℚ),
      natMaxAttempts cfg2 = 0 →
      (execute op2 cfg2 rand2).2.outcomes = [] ∧
      (execute op2 cfg2 rand2).1 = ⟨vnull, genericRetryError⟩ :=
  c9_last_error_verbatim (.promise (vpromise 0 true (verror "bad")))
    { maxRetries := some (1 : ℚ) } (fun _ => 0)
    (by rw [natMaxAttempts_natCast _ 1 (by norm_num)]; omega)
    (fun _ _ => rfl)

/-- C1 (amended): wrapping a function that returns a promise always
rejecting with a JS-truthy error value with `Try.catch` invokes the
function exactly ONCE, eagerly, at wrap time; the handle stores the
resulting bare promise, so chaining `withRetry(3)` performs 4 attempts
that each re-await that same rejected computation without re-invoking
the function (total invocations: 1, not 4), and the final Result
carries the rejection's error. -/
theorem c1_eager_single_invocation (d : ℚ) (e : JSVal) (rand : Nat → ℚ)
    (he : truthy e = true) :
    tryCatch (.funcI (.returnsB (vpromise d true e)))
      = .asyncO ⟨.promise (vpromise d true e), {}⟩ ∧
    catchInvocations (.funcI (.returnsB (vpromise d true e))) = 1 ∧
    ((AsyncOperation.mk (.promise (vpromise d true e)) {}).withRetry 3).config
      = { maxRetries := some (3 : ℚ) } ∧
    (execute (.promise (vpromise d true e)) { maxRetries := some (3 : ℚ) }
        rand).2.outcomes.length = 4 ∧
    (execute (.promise (vpromise d true e)) { maxRetries := some (3 : ℚ) }
        rand).1 = ⟨vnull, e⟩ ∧
    executeInvocations (.promise (vpromise d true e))
        (execute (.promise (vpromise d true e)) { maxRetries := some (3 : ℚ) }
          rand).2 = 0 := by
  have H : ∀ k now, truthy (runStep (.promise (vpromise d true e))
      { maxRetries := some (3 : ℚ) } k now).result.error = true := by
    intro k now
    rw [runStep_no_timeout_promise { maxRetries := some (3 : ℚ) } rfl
      d true e k now]
    simpa [stepOfOutcome] using he
  obtain ⟨hlen, out, hlast, htr, hres, k, t, hsrc⟩ :=
    executeLoop_allFail (.promise (vpromise d true e))
      { maxRetries := some (3 : ℚ) } rand H
      (natMaxAttempts { maxRetries := some (3 : ℚ) })
      (by rw [natMaxAttempts_natCast _ 3 (by norm_num)]; omega)
      1 ⟨0, vnull, [], []⟩
  have hout : out = .rejectedO e := by
    rw [runStep_no_timeout_promise { maxRetries := some (3 : ℚ) } rfl
      d true e k t] at hsrc
    simpa [stepOfOutcome] using hsrc
  refine ⟨rfl, rfl, rfl, ?_, ?_, ?_⟩
  · show (executeLoop (.promise (vpromise d true e))
        { maxRetries := some (3 : ℚ) } rand 1
        (natMaxAttempts { maxRetries := some (3 : ℚ) })
        ⟨0, vnull, [], []⟩).2.outcomes.length = 4
    rw [hlen, natMaxAttempts_natCast _ 3 (by norm_num)]
    simp
  · show (executeLoop (.promise (vpromise d true e))
        { maxRetries := some (3 : ℚ) } rand 1
        (natMaxAttempts { maxRetries := some (3 : ℚ) })
        ⟨0, vnull, [], []⟩).1 = ⟨vnull, e⟩
    rw [hres, hout]
    rfl
  · simp [executeInvocations, runInvocations]

/-- C1 counterexample: with the concrete always-rejecting function (a
promise rejecting with `Error("boom")`), the function is invoked exactly
once in total across `Try.catch` and all 4 retry attempts — not 4
times. -/
theorem c1_counterexample_invocation_count :
    catchInvocations (.funcI (.returnsB (vpromise 0 true (verror "boom"))))
      + executeInvocations (.promise (vpromise 0 true (verror "boom")))
          (execute (.promise (vpromise 0 true (verror "boom")))
            { maxRetries := some (3 : ℚ) } (fun _ => 0)).2 = 1 ∧
    (1 : Nat) ≠ 4 := by
  constructor
  · simp [catchInvocations, executeInvocations, runInvocations]
  · omega

/-- C1 witness: concrete instance at `d = 0`, `e = Error("boom")`. -/
theorem c1_eager_single_invocation_witness :
    truthy (verror "boom") = true ∧
    (tryCatch (.funcI (.returnsB (vpromise 0 true (verror "boom"))))
      = .asyncO ⟨.promise (vpromise 0 true (verror "boom")), {}⟩ ∧
    catchInvocations (.funcI (.returnsB (vpromise 0 true (verror "boom"))))
      = 1 ∧
    ((AsyncOperation.mk (.promise (vpromise 0 true (verror "boom")))
        {}).withRetry 3).config = { maxRetries := some (3 : ℚ) } ∧
    (execute (.promise (vpromise 0 true (verror "boom")))
        { maxRetries := some (3 : ℚ) } (fun _ => 0)).2.outcomes.length = 4 ∧
    (execute (.promise (vpromise 0 true (verror "boom")))
        { maxRetries := some (3 : ℚ) } (fun _ => 0)).1
      = ⟨vnull, verror "boom"⟩ ∧
    executeInvocations (.promise (vpromise 0 true (verror "boom")))
        (execute (.promise (vpromise 0 true (verror "boom")))
          { maxRetries := some (3 : ℚ) } (fun _ => 0)).2 = 0) :=
  ⟨rfl, c1_eager_single_invocation 0 (verror "boom") (fun _ => 0) rfl⟩

/-- C3 (amended): awaiting the handle always resolves to a `Result` (the
embedding is a total function into `JSResult`; `run()`'s `catch`
converts every rejection and timeout into a returned Result), and —
provided the operation's rejection values are non-null — the `error`
field is null exactly when the final attempt genuinely resolved; every
failure path (rejection, timeout, exhausted retries) surfaces as a
non-null `error`.  A rejection value of `null` itself is the exception
refuted in the counterexample. -/
theorem c3_failures_surface_in_error (op : Operation) (cfg : AsyncConfig)
    (rand : Nat → ℚ) (hrej : RejNonNull op) :
    ((execute op cfg rand).1.error = vnull ↔
      ∃ v, (execute op cfg rand).2.outcomes.getLast?
             = some (.resolvedO v)) ∧
    ∀ v, (execute op cfg rand).2.outcomes.getLast? = some (.resolvedO v) →
      (execute op cfg rand).1 = ⟨v, vnull⟩ :=
  executeLoop_errNull op cfg rand hrej (natMaxAttempts cfg) 1
    ⟨0, vnull, [], []⟩ (by intro v h; simp at h)

/-- C3 counterexample: a promise rejecting with `null`: the attempt fails
through the rejection path, yet the resolved Result's `error` field is
null — this failure does not appear as a non-null `error`. -/
theorem c3_counterexample_null_rejection :
    (execute (.promise (vpromise 0 true vnull)) {} (fun _ => 0)).1
      = ⟨vnull, vnull⟩ ∧
    (execute (.promise (vpromise 0 true vnull)) {} (fun _ => 0)).2.outcomes
      = [.rejectedO vnull] := by
  have hrs : runStep (.promise (vpromise 0 true vnull)) {} 1 0
      = stepOfOutcome (.rejectedO vnull) 0 := by
    rw [runStep_no_timeout_promise {} rfl 0 true vnull 1 0]
    simp
  rw [execute_succ _ _ _ 0 (by rw [natMaxAttempts_none {} rfl])]
  rw [hrs]
  rw [if_pos (by simp [stepOfOutcome, truthy])]
  exact ⟨rfl, rfl⟩

/-- C3 witness: concrete instance, rejection value `Error("err")`. -/
theorem c3_failures_surface_in_error_witness :
    RejNonNull (.promise (vpromise 0 true (verror "err"))) ∧
    (((execute (.promise (vpromise 0 true (verror "err"))) {}
        (fun _ => 0)).1.error = vnull ↔
      ∃ v, (execute (.promise (vpromise 0 true (verror "err"))) {}
          (fun _ => 0)).2.outcomes.getLast? = some (.resolvedO v)) ∧
     ∀ v, (execute (.promise (vpromise 0 true (verror "err"))) {}
          (fun _ => 0)).2.outcomes.getLast? = some (.resolvedO v) →
        (execute (.promise (vpromise 0 true (verror "err"))) {}
          (fun _ => 0)).1 = ⟨v, vnull⟩) :=
  ⟨fun h => JSVal.noConfusion h,
   c3_failures_surface_in_error _ _ _ (fun h => JSVal.noConfusion h)⟩

/-- C10: with `withTimeout(0)` (`timeoutMs: 0` is JS-falsy), no timeout
race is applied at all: execution is identical to the same configuration
with no timeout configured, and no attempt ever produces a timeout
outcome. -/
theorem c10_timeout_zero_disabled (op : Operation) (cfg : AsyncConfig)
    (rand : Nat → ℚ) (h : cfg.timeoutMs = some 0) :
    execute op cfg rand = execute op { cfg with timeoutMs := none } rand ∧
    ∀ out ∈ (execute op cfg rand).2.outcomes, ∀ e,
      out ≠ .timedOutO e := by
  have h1 : numTruthy cfg.timeoutMs = false := by
    rw [h]
    simp [numTruthy]
  constructor
  · unfold execute
    exact executeLoop_congr op cfg { cfg with timeoutMs := none } rand h1
      rfl rfl rfl rfl rfl (natMaxAttempts cfg) 1 ⟨0, vnull, [], []⟩
  · intro out hmem
    exact executeLoop_no_timeout op cfg rand h1 (natMaxAttempts cfg) 1
      ⟨0, vnull, [], []⟩ (by intro o ho e; simp at ho) out hmem

/-- C10 witness: a slow promise under `withTimeout(0)`. -/
theorem c10_timeout_zero_disabled_witness :
    ({ timeoutMs := some 0 } : AsyncConfig).timeoutMs = some 0 ∧
    (execute (.promise (vpromise 5 false (vnum 42)))
        { timeoutMs := some 0 } (fun _ => 0)
      = execute (.promise (vpromise 5 false (vnum 42)))
          { ({ timeoutMs := some 0 } : AsyncConfig) with timeoutMs := none }
          (fun _ => 0) ∧
     ∀ out ∈ (execute (.promise (vpromise 5 false (vnum 42)))
          { timeoutMs := some 0 } (fun _ => 0)).2.outcomes, ∀ e,
        out ≠ .timedOutO e) :=
  ⟨rfl, c10_timeout_zero_disabled (.promise (vpromise 5 false (vnum 42)))
    { timeoutMs := some 0 } (fun _ => 0) rfl⟩

lemma runStep_timeout_fires (cfg : AsyncConfig) (ms d : ℚ)
    (hms : 0 < ms) (hd : ms < d) (rej : Bool) (inner : JSVal) (k : Nat)
    (htm : cfg.timeoutMs = some ms) :
    runStep (.promise (vpromise d rej inner)) cfg k 0
      = stepOfOutcome
          (.timedOutO (jsOrVal cfg.timeoutError (verror (timeoutMessage ms))))
          (0 + max ms 0) := by
  apply runStep_spec
  have hne : numTruthy (some ms) = true := by
    simp only [numTruthy, bne_iff_ne]
    exact hms.ne'
  have hmax : max ms (0 : ℚ) = ms := max_eq_left hms.le
  have hd0 : ¬(d ≤ ms ∨ d ≤ (0 : ℚ)) := by
    push_neg
    exact ⟨hd, hms.trans hd⟩
  simp [awaitOp, opCreatedAt, opValue, htm, hne, hd0, hmax]
  intro hc
  exact absurd (Or.inl hc) hd0

/-- C6 (amended): for `withTimeout(ms)` with integral `ms > 0` (and no
retries) over a computation that does not settle within `ms`
milliseconds, the resolved Result is a failure whose error is the
default `Error` with message exactly `"Operation timed out after
{ms}ms"`, unless a JS-truthy custom timeout error was supplied, in which
case that custom error value is returned instead.  (`ms = 0` disables
the timeout entirely, and a falsy custom error value is replaced by the
default — see the counterexample.) -/
theorem c6_timeout_error (ms : ℤ) (hms : 0 < ms) (d : ℚ)
    (hd : (ms : ℚ) < d) (rej : Bool) (inner : JSVal) (te : Option JSVal)
    (rand : Nat → ℚ) :
    (te = none →
      (execute (.promise (vpromise d rej inner))
          { timeoutMs := some (ms : ℚ), timeoutError := te } rand).1
        = ⟨vnull, verror (timeoutMessage (ms : ℚ))⟩) ∧
    (∀ ce, te = some ce → truthy ce = true →
      (execute (.promise (vpromise d rej inner))
          { timeoutMs := some (ms : ℚ), timeoutError := te } rand).1
        = ⟨vnull, ce⟩) ∧
    timeoutMessage (ms : ℚ)
      = "Operation timed out after " ++ toString ms ++ "ms" := by
  have hmsQ : (0 : ℚ) < (ms : ℚ) := by exact_mod_cast hms
  refine ⟨?_, ?_, ?_⟩
  · intro hte
    subst hte
    rw [execute_succ _ _ _ 0 (by rw [natMaxAttempts_none _ rfl])]
    rw [runStep_timeout_fires _ _ d hmsQ hd rej inner 1 rfl]
    rw [if_neg (by simp [stepOfOutcome, jsOrVal, truthy]), if_pos rfl]
    show finalFailure (jsOrVal none (verror (timeoutMessage (ms : ℚ))))
      = ⟨vnull, verror (timeoutMessage (ms : ℚ))⟩
    exact finalFailure_truthy _ rfl
  · intro ce hte htr
    subst hte
    rw [execute_succ _ _ _ 0 (by rw [natMaxAttempts_none _ rfl])]
    rw [runStep_timeout_fires _ _ d hmsQ hd rej inner 1 rfl]
    have hE : jsOrVal (some ce) (verror (timeoutMessage (ms : ℚ))) = ce := by
      show (if truthy ce = true then ce
            else verror (timeoutMessage (ms : ℚ))) = ce
      rw [if_pos htr]
    rw [hE]
    rw [if_neg (by simp [stepOfOutcome, htr]), if_pos rfl]
    show finalFailure ce = ⟨vnull, ce⟩
    exact finalFailure_truthy ce htr
  · have hden : ((ms : ℤ) : ℚ).den = 1 := Rat.den_intCast ms
    have hnum : ((ms : ℤ) : ℚ).num = ms := Rat.num_intCast ms
    simp [timeoutMessage, qToString, hden, hnum]

/-- C6 counterexample: (a) `withTimeout(0)` applies no timeout at all —
a computation settling at time 5 with timeout 0 resolves with its value
instead of the claimed timeout error; (b) a supplied falsy custom
timeout error (`0`) is not returned — the default message error is
produced instead. -/
theorem c6_counterexample_zero_and_falsy_custom :
    (execute (.promise (vpromise 5 false (vnum 42)))
        { timeoutMs := some 0 } (fun _ => 0)).1 = ⟨vnum 42, vnull⟩ ∧
    (execute (.promise (vpromise 50 false (vnum 42)))
        { timeoutMs := some 10, timeoutError := some (vnum 0) }
        (fun _ => 0)).1 = ⟨vnull, verror (timeoutMessage 10)⟩ ∧
    timeoutMessage 10 = "Operation timed out after 10ms" ∧
    (vnum 0 : JSVal) ≠ verror (timeoutMessage 10) := by
  refine ⟨?_, ?_, ?_, by simp⟩
  · rw [execute_succ _ _ _ 0 (by rw [natMaxAttempts_none _ rfl])]
    rw [runStep_no_timeout_promise { timeoutMs := some 0 }
      (by simp [numTruthy]) 5 false (vnum 42) 1 0]
    rw [if_pos (by simp [stepOfOutcome, truthy])]
    rfl
  · rw [execute_succ _ _ _ 0 (by rw [natMaxAttempts_none _ rfl])]
    rw [runStep_timeout_fires _ 10 50 (by norm_num) (by norm_num) false
      (vnum 42) 1 rfl]
    have hE : jsOrVal (some (vnum 0)) (verror (timeoutMessage 10))
        = verror (timeoutMessage 10) := by
      show (if truthy (vnum 0) = true then vnum 0
            else verror (timeoutMessage 10)) = verror (timeoutMessage 10)
      rw [if_neg (by simp [truthy])]
    rw [hE]
    rw [if_neg (by simp [stepOfOutcome, truthy]), if_pos rfl]
    show finalFailure (verror (timeoutMessage 10))
      = ⟨vnull, verror (timeoutMessage 10)⟩
    exact finalFailure_truthy _ rfl
  · simp [timeoutMessage, qToString]
    rfl

/-- C6 witness: `withTimeout(50)` (default error) over a computation
settling at 1000ms. -/
theorem c6_timeout_error_witness :
    (0 : ℤ) < 50 ∧ (((50 : ℤ) : ℚ) < 1000) ∧
    (((none : Option JSVal) = none →
      (execute (.promise (vpromise 1000 false (vnum 1)))
          { timeoutMs := some ((50 : ℤ) : ℚ), timeoutError := none }
          (fun _ => 0)).1
        = ⟨vnull, verror (timeoutMessage ((50 : ℤ) : ℚ))⟩) ∧
    (∀ ce, (none : Option JSVal) = some ce → truthy ce = true →
      (execute (.promise (vpromise 1000 false (vnum 1)))
          { timeoutMs := some ((50 : ℤ) : ℚ), timeoutError := none }
          (fun _ => 0)).1 = ⟨vnull, ce⟩) ∧
    timeoutMessage ((50 : ℤ) : ℚ)
      = "Operation timed out after " ++ toString (50 : ℤ) ++ "ms") :=
  ⟨by norm_num, by norm_num,
   c6_timeout_error 50 (by norm_num) 1000 (by norm_num) false (vnum 1)
     none (fun _ => 0)⟩

lemma getD_range_map (f : Nat → ℚ) (n i : Nat) (h : i < n) :
    ((List.range n).map f).getD i 0 = f i := by
  rw [List.getD_eq_getElem?_getD, List.getElem?_map, List.getElem?_range h]
  rfl

/-- C7 (amended): with `maxRetries = n`, a non-zero `baseDelayMs = b` and
a permanently failing operation, exactly `n` inter-attempt sleeps occur;
the delay before the attempt following failed attempt `k` is
`b * 2^(k-1)` when `exponential` is truthy and `b * k` otherwise, capped
by `min · M` where `M` is `maxDelayMs` when set and non-zero and `30000`
otherwise (a configured `maxDelayMs` of `0` is JS-falsy and ignored);
when `jitter` is truthy, `Math.random() * 1000` — a value in `[0, 1000)`
— is added after the cap.  (With `baseDelayMs = 0` no sleep happens at
all — see the counterexample.) -/
theorem c7_backoff_delays (n : ℕ) (b : ℚ) (hb : b ≠ 0)
    (expFlag jitFlag : Option Bool) (M tm : Option ℚ) (te : Option JSVal)
    (op : Operation) (rand : Nat → ℚ)
    (H : ∀ k now, truthy (runStep op
        ⟨some b, expFlag, M, jitFlag, tm, te, some (n : ℚ)⟩ k
          now).result.error = true) :
    ((execute op ⟨some b, expFlag, M, jitFlag, tm, te, some (n : ℚ)⟩
        rand).2.sleeps.length = n ∧
     ∀ k, 1 ≤ k → k ≤ n →
       (execute op ⟨some b, expFlag, M, jitFlag, tm, te, some (n : ℚ)⟩
           rand).2.sleeps.getD (k - 1) 0
         = min (if boolTruthy expFlag then (2 : ℚ) ^ (k - 1) * b
                else (k : ℚ) * b)
             (orNum M 30000)
           + (if boolTruthy jitFlag then rand k * 1000 else 0)) ∧
    ∀ q : ℚ, 0 ≤ q → q < 1 → 0 ≤ q * 1000 ∧ q * 1000 < 1000 := by
  have hbt : numTruthy
      ((⟨some b, expFlag, M, jitFlag, tm, te, some (n : ℚ)⟩ :
        AsyncConfig)).baseDelayMs = true := by
    simp only [numTruthy, bne_iff_ne]
    exact hb
  have hcnt : natMaxAttempts
      (⟨some b, expFlag, M, jitFlag, tm, te, some (n : ℚ)⟩ : AsyncConfig)
        = n + 1 :=
    natMaxAttempts_natCast _ n rfl
  have hsl := executeLoop_sleeps op
    ⟨some b, expFlag, M, jitFlag, tm, te, some (n : ℚ)⟩ rand H hbt
    (natMaxAttempts
      (⟨some b, expFlag, M, jitFlag, tm, te, some (n : ℚ)⟩ : AsyncConfig))
    (by omega) 1 ⟨0, vnull, [], []⟩
  rw [hcnt, Nat.add_sub_cancel] at hsl
  have hdelay : ∀ k, 1 ≤ k →
      backoffDelay ⟨some b, expFlag, M, jitFlag, tm, te, some (n : ℚ)⟩
        rand k
        = min (if boolTruthy expFlag then (2 : ℚ) ^ (k - 1) * b
               else (k : ℚ) * b) (orNum M 30000)
          + (if boolTruthy jitFlag then rand k * 1000 else 0) := by
    intro k _
    by_cases hj : boolTruthy jitFlag = true
    · simp [backoffDelay, hj]
    · simp [backoffDelay, hj]
  refine ⟨⟨?_, ?_⟩, ?_⟩
  · show (executeLoop op
        ⟨some b, expFlag, M, jitFlag, tm, te, some (n : ℚ)⟩ rand 1
        (natMaxAttempts
          (⟨some b, expFlag, M, jitFlag, tm, te, some (n : ℚ)⟩ :
            AsyncConfig)) ⟨0, vnull, [], []⟩).2.sleeps.length = n
    rw [hcnt, hsl]
    simp
  · intro k h1 hk
    show (executeLoop op
        ⟨some b, expFlag, M, jitFlag, tm, te, some (n : ℚ)⟩ rand 1
        (natMaxAttempts
          (⟨some b, expFlag, M, jitFlag, tm, te, some (n : ℚ)⟩ :
            AsyncConfig)) ⟨0, vnull, [], []⟩).2.sleeps.getD (k - 1) 0 = _
    rw [hcnt, hsl]
    simp only [List.nil_append]
    rw [getD_range_map _ n (k - 1) (by omega)]
    rw [show 1 + (k - 1) = k by omega]
    exact hdelay k h1
  · intro q h0 h1
    constructor
    · positivity
    · nlinarith

/-- C7 counterexample: (a) a configured `maxDelayMs` of `0` is JS-falsy,
so the code caps with the default 30000 instead: with `baseDelayMs =
100`, `maxRetries = 1`, `maxDelayMs = 0`, the recorded sleep is `100`,
not the claimed `min 100 0 = 0`; (b) with `baseDelayMs = 0` and jitter
enabled, no sleep happens at all — no jitter in `[0, 1000)` is added. -/
theorem c7_counterexample_cap_zero_and_base_zero :
    (execute (.promise (vpromise 0 true (verror "x")))
        ⟨some 100, none, some 0, none, none, none, some ((1 : ℕ) : ℚ)⟩
        (fun _ => 0)).2.sleeps = [100] ∧
    ((100 : ℚ) ≠ min 100 0) ∧
    (execute (.promise (vpromise 0 true (verror "x")))
        ⟨some 0, none, none, some true, none, none, some ((1 : ℕ) : ℚ)⟩
        (fun _ => 1 / 2)).2.sleeps = [] := by
  refine ⟨?_, by norm_num, ?_⟩
  · have H : ∀ k now, truthy (runStep (.promise (vpromise 0 true (verror "x")))
        ⟨some 100, none, some 0, none, none, none, some ((1 : ℕ) : ℚ)⟩ k
          now).result.error = true := by
      intro k now
      rw [runStep_no_timeout_promise
        ⟨some 100, none, some 0, none, none, none, some ((1 : ℕ) : ℚ)⟩ rfl
        0 true (verror "x") k now]
      rfl
    have hbt : numTruthy
        ((⟨some 100, none, some 0, none, none, none, some ((1 : ℕ) : ℚ)⟩ :
          AsyncConfig)).baseDelayMs = true := by
      simp only [numTruthy, bne_iff_ne]
      norm_num
    have hcnt : natMaxAttempts
        (⟨some 100, none, some 0, none, none, none, some ((1 : ℕ) : ℚ)⟩ :
          AsyncConfig) = 1 + 1 :=
      natMaxAttempts_natCast _ 1 rfl
    have hsl := executeLoop_sleeps (.promise (vpromise 0 true (verror "x")))
      ⟨some 100, none, some 0, none, none, none, some ((1 : ℕ) : ℚ)⟩
      (fun _ => 0) H hbt (1 + 1) (by omega) 1 ⟨0, vnull, [], []⟩
    show (executeLoop (.promise (vpromise 0 true (verror "x")))
        ⟨some 100, none, some 0, none, none, none, some ((1 : ℕ) : ℚ)⟩
        (fun _ => 0) 1
        (natMaxAttempts
          (⟨some 100, none, some 0, none, none, none,
            some ((1 : ℕ) : ℚ)⟩ : AsyncConfig))
        ⟨0, vnull, [], []⟩).2.sleeps = [100]
    rw [hcnt, hsl]
    simp only [List.nil_append, Nat.add_sub_cancel]
    rw [show List.range 1 = [0] from rfl, List.map_cons, List.map_nil]
    have : backoffDelay
        ⟨some 100, none, some 0, none, none, none, some ((1 : ℕ) : ℚ)⟩
        (fun _ => 0) (1 + 0) = 100 := by
      simp [backoffDelay, boolTruthy, orNum]
      norm_num
    rw [this]
  · have hrs : ∀ now, runStep (.promise (vpromise 0 true (verror "x")))
        ⟨some 0, none, none, some true, none, none, some ((1 : ℕ) : ℚ)⟩ 1
          now = stepOfOutcome (.rejectedO (verror "x")) (max now 0) := by
      intro now
      rw [runStep_no_timeout_promise
        ⟨some 0, none, none, some true, none, none, some ((1 : ℕ) : ℚ)⟩ rfl
        0 true (verror "x") 1 now]
      rfl
    rw [execute_succ _ _ _ 1 (natMaxAttempts_natCast _ 1 rfl)]
    rw [hrs 0]
    rw [if_neg (by simp [stepOfOutcome, truthy]), if_neg (by omega),
      if_neg (by simp [numTruthy])]
    rw [executeLoop_succ]
    rw [if_neg (by
      rw [runStep_no_timeout_promise
        ⟨some 0, none, none, some true, none, none, some ((1 : ℕ) : ℚ)⟩ rfl
        0 true (verror "x") 2 _]
      simp [stepOfOutcome, truthy]), if_pos rfl]

/-- C7 witness: exponential backoff, base 100, one retry over a
permanently rejecting promise. -/
theorem c7_backoff_delays_witness :
    ((100 : ℚ) ≠ 0) ∧
    (((execute (.promise (vpromise 0 true (verror "x")))
        ⟨some 100, some true, none, none, none, none, some ((1 : ℕ) : ℚ)⟩
        (fun _ => 0)).2.sleeps.length = 1 ∧
      ∀ k, 1 ≤ k → k ≤ 1 →
        (execute (.promise (vpromise 0 true (verror "x")))
            ⟨some 100, some true, none, none, none, none,
              some ((1 : ℕ) : ℚ)⟩ (fun _ => 0)).2.sleeps.getD (k - 1) 0
          = min (if boolTruthy (some true) then (2 : ℚ) ^ (k - 1) * 100
                 else (k : ℚ) * 100) (orNum none 30000)
            + (if boolTruthy (none : Option Bool) then (0 : ℚ) * 1000
               else 0)) ∧
     ∀ q : ℚ, 0 ≤ q → q < 1 → 0 ≤ q * 1000 ∧ q * 1000 < 1000) :=
  ⟨by norm_num,
   c7_backoff_delays 1 100 (by norm_num) (some true) none none none none
     (.promise (vpromise 0 true (verror "x"))) (fun _ => 0)
     (fun k now => by
       rw [runStep_no_timeout_promise
         ⟨some 100, some true, none, none, none, none, some ((1 : ℕ) : ℚ)⟩
         rfl 0 true (verror "x") k now]
       rfl)⟩
